import Mathlib

/-!
Verification of the localization validator (`validator.py`, `lib/html_preview.py`).

The development shallowly embeds the string-processing core of the validator:

* the short-format directive scanner (`re.findall(FORMAT_REGEX, ...)` with
  `FORMAT_REGEX = r"~[s,b,r,n,y,p,g,o,h,c]~"`),
* the placeholder-variable scanner (`re.findall(VARIABLE_REGEX, ...)` with
  `VARIABLE_REGEX = r"{[0-9]+}"`),
* the per-translation consistency checks of `Validator.check_entries`,
* the shorthand-to-canonical-color rewrite (`regex_replace_multiple` over
  `GTA_FORMAT_REPLACEMENT_TABLE`),
* the directive tokenizer (`re.split`/`re.findall` on the directive-union
  pattern `GROUP_REGEX`) and the style state machine of
  `formatted_string_to_html` / `add_formatted_text_to_html`.

Raw text is modelled as `List Char`.  Python regex scanning (leftmost match,
alternatives tried in order, non-overlapping continuation after each match) is
modelled by explicit character-level scanners.
-/

/-- Convert a string literal to the `List Char` representation of raw text. -/
def toL (s : String) : List Char := s.data

/-- The character class of `FORMAT_REGEX = r"~[s,b,r,n,y,p,g,o,h,c]~"`.
The commas inside the Python character class are literal characters, so the
class also contains `,`. -/
def shortFormatChars : List Char :=
  ['s', 'b', 'r', 'n', 'y', 'p', 'g', 'o', 'h', 'c', ',']

/-- Fuel-indexed scan of `re.findall(FORMAT_REGEX, text)`: at each position
try to match `~c~` with `c` in the class; on a match continue after it
(non-overlapping), otherwise shift one character.  Each step consumes at
least one character, so `fuel = length` is always enough; the out-of-fuel
branch is unreachable for `findFormats`. -/
def findFormatsF : Nat → List Char → List (List Char)
  | 0, _ => []
  | _ + 1, [] => []
  | fuel + 1, '~' :: d :: '~' :: rest =>
    if d ∈ shortFormatChars then ['~', d, '~'] :: findFormatsF fuel rest
    else findFormatsF fuel (d :: '~' :: rest)
  | fuel + 1, _ :: rest => findFormatsF fuel rest

/-- Model of `re.findall(FORMAT_REGEX, text)`. -/
def findFormats (text : List Char) : List (List Char) :=
  findFormatsF text.length text

/-- Fuel-indexed scan of `re.sub(FORMAT_REGEX, "", text)`: the same scan as
`findFormatsF`, removing each match and keeping every other character. -/
def removeFormatsF : Nat → List Char → List Char
  | 0, t => t
  | _ + 1, [] => []
  | fuel + 1, '~' :: d :: '~' :: rest =>
    if d ∈ shortFormatChars then removeFormatsF fuel rest
    else '~' :: removeFormatsF fuel (d :: '~' :: rest)
  | fuel + 1, x :: rest => x :: removeFormatsF fuel rest

/-- Model of `re.sub(FORMAT_REGEX, "", text)`. -/
def removeFormats (text : List Char) : List Char :=
  removeFormatsF text.length text

/-- Decimal digit test, the `[0-9]` class. -/
def isDigitCh (c : Char) : Bool := '0' ≤ c && c ≤ '9'

/-- Scanner state machine for `re.findall(VARIABLE_REGEX, text)` with
`VARIABLE_REGEX = r"{[0-9]+}"`.  The mode is `none` while looking for `{`
and `some ds` after a `{` with digits `ds` accumulated so far; on a failed
match the scan resumes at the failing character, which (as in Python's
left-to-right rescan) can itself start a new match only if it is `{`. -/
def varScan : Option (List Char) → List Char → List (List Char)
  | _, [] => []
  | none, c :: rest =>
    if c = '{' then varScan (some []) rest else varScan none rest
  | some ds, c :: rest =>
    if isDigitCh c then varScan (some (ds ++ [c])) rest
    else if c = '}' then
      if ds = [] then varScan none rest
      else ('{' :: ds ++ ['}']) :: varScan none rest
    else if c = '{' then varScan (some []) rest
    else varScan none rest

/-- Model of `re.findall(VARIABLE_REGEX, text)`. -/
def findVariables (text : List Char) : List (List Char) := varScan none text

/-- Whitespace class `\s` (ASCII). -/
def isWs (c : Char) : Bool :=
  c = ' ' || c = '\t' || c = '\n' || c = '\x0b' || c = '\x0c' || c = '\r'

/-- Nonempty match of `re.findall(r"\s\s+", text)`: two consecutive
whitespace characters occur somewhere. -/
def hasDoubleSpace : List Char → Bool
  | a :: b :: rest => (isWs a && isWs b) || hasDoubleSpace (b :: rest)
  | _ => false

/-- The character class of `WRONG_PUNCTUATION_REGEX = r"\s[.,?,!]"`. -/
def punctClass (c : Char) : Bool := c = '.' || c = ',' || c = '?' || c = '!'

/-- Nonempty match of `re.findall(WRONG_PUNCTUATION_REGEX, text)`: a
whitespace character immediately followed by `.`, `,`, `?` or `!`. -/
def hasWrongPunct : List Char → Bool
  | a :: b :: rest => (isWs a && punctClass b) || hasWrongPunct (b :: rest)
  | _ => false

/-- One diagnostic kind emitted by `Validator.check_entries`.  The structured
payloads carry the literals named in the printed message. -/
inductive DiagKind where
  | invalidFormatting (lits : List (List Char))
  | missingFormatting (lits : List (List Char))
  | wrongEnd (found expected : List Char)
  | missingVariables (vars : List (List Char))
  | unneededVariables (vars : List (List Char))
  | strayTilde
  | tooManySpaces
  | wrongPunctuation
  | missingTranslation (lang : String)
deriving DecidableEq, Repr

/-- Diagnostic severity.  `Validator.print_error` records an error (counted in
`Validator.errors`); `Validator.print_warning` records a warning. -/
inductive Severity where
  | warning
  | error
deriving DecidableEq, Repr

/-- Severity with which `check_entries` reports each diagnostic kind: every
check in the per-translation loop calls `print_error`; only the missing
`show_lang` translation report calls `print_warning`. -/
def DiagKind.severity : DiagKind → Severity
  | .missingTranslation _ => .warning
  | _ => .error

/-- Model of `sys.exit(1) if Validator.errors > 0` in `__main__`: the count of
error-severity diagnostics decides the exit code. -/
def countErrors (ds : List DiagKind) : Nat :=
  (ds.filter (fun d => decide (d.severity = Severity.error))).length

/-- Process exit code as decided at the end of `__main__`. -/
def exitCode (ds : List DiagKind) : Nat :=
  if countErrors ds > 0 then 1 else 0

/-- The formatting signature extracted from the reference (`en-US`) text in
`check_entries`: `required_text_formatting` (a set, represented by the
deduplicated list of found literals; empty when no format is found),
`should_end_with_format` (`None` when no format is found), and
`required_variables`. -/
def extractSignature (refText : List Char) :
    List (List Char) × Option (List Char) × List (List Char) :=
  let f := findFormats refText
  (f.dedup, f.getLast?, findVariables refText)

/-- The diagnostics emitted for one translation by the per-translation loop of
`Validator.check_entries` (lines 572-607 of `validator.py`), in emission
order.  `required`/`shouldEnd`/`requiredVars` are the signature values
extracted from the reference translation. -/
def checkTranslation (required : List (List Char)) (shouldEnd : Option (List Char))
    (requiredVars : List (List Char)) (text : List Char) : List DiagKind :=
  let foundFormats := findFormats text
  let fmtDiags :=
    match shouldEnd with
    | some e =>
      if foundFormats.length > 0 then
        let foundSet := foundFormats.dedup
        let invalid := foundSet.filter (fun f => decide (f ∉ required))
        let missing := required.filter (fun f => decide (f ∉ foundSet))
        (if invalid ≠ [] then [DiagKind.invalidFormatting invalid] else []) ++
        (if missing ≠ [] then [DiagKind.missingFormatting missing] else []) ++
        (match foundFormats.getLast? with
         | some l => if l ≠ e then [DiagKind.wrongEnd l e] else []
         | none => [])
      else []
    | none => []
  let foundVars := findVariables text
  let varDiags :=
    if foundVars.length < requiredVars.length then
      let missingVars := requiredVars.filter (fun v => decide (v ∉ foundVars))
      if missingVars ≠ [] then [DiagKind.missingVariables missingVars] else []
    else if foundVars.length > requiredVars.length then
      let unneeded := foundVars.filter (fun v => decide (v ∉ requiredVars))
      if unneeded ≠ [] then [DiagKind.unneededVariables unneeded] else []
    else []
  let stripped := removeFormats text
  let strayDiags := if '~' ∈ stripped then [DiagKind.strayTilde] else []
  let spaceDiags := if hasDoubleSpace stripped then [DiagKind.tooManySpaces] else []
  let punctDiags := if hasWrongPunct stripped then [DiagKind.wrongPunctuation] else []
  fmtDiags ++ varDiags ++ strayDiags ++ spaceDiags ++ punctDiags

/-- `check_entries` restricted to its string-consistency core: extract the
signature from the reference text, then check every translation against it. -/
def check_entries (refText : List Char) (translations : List (List Char)) :
    List (List DiagKind) :=
  let sig := extractSignature refText
  translations.map (checkTranslation sig.1 sig.2.1 sig.2.2)

/-- The fixed color lookup table `GTA_HUD_COLORS` of `validator.py`. -/
def GTA_HUD_COLORS : List (String × String) := [
  ("HUD_COLOUR_PURE_WHITE", "rgba(255, 255, 255, 255)"),
  ("HUD_COLOUR_WHITE", "rgba(240, 240, 240, 255)"),
  ("HUD_COLOUR_BLACK", "rgba(0, 0, 0, 255)"),
  ("HUD_COLOUR_GREY", "rgba(155, 155, 155, 255)"),
  ("HUD_COLOUR_GREYLIGHT", "rgba(205, 205, 205, 255)"),
  ("HUD_COLOUR_GREYDARK", "rgba(77, 77, 77, 255)"),
  ("HUD_COLOUR_RED", "rgba(224, 50, 50, 255)"),
  ("HUD_COLOUR_REDLIGHT", "rgba(240, 153, 153, 255)"),
  ("HUD_COLOUR_REDDARK", "rgba(112, 25, 25, 255)"),
  ("HUD_COLOUR_BLUE", "rgba(93, 182, 229, 255)"),
  ("HUD_COLOUR_BLUELIGHT", "rgba(174, 219, 242, 255)"),
  ("HUD_COLOUR_BLUEDARK", "rgba(47, 92, 115, 255)"),
  ("HUD_COLOUR_YELLOW", "rgba(240, 200, 80, 255)"),
  ("HUD_COLOUR_YELLOWLIGHT", "rgba(254, 235, 169, 255)"),
  ("HUD_COLOUR_YELLOWDARK", "rgba(126, 107, 41, 255)"),
  ("HUD_COLOUR_ORANGE", "rgba(255, 133, 85, 255)"),
  ("HUD_COLOUR_ORANGELIGHT", "rgba(255, 194, 170, 255)"),
  ("HUD_COLOUR_ORANGEDARK", "rgba(127, 66, 42, 255)"),
  ("HUD_COLOUR_GREEN", "rgba(114, 204, 114, 255)"),
  ("HUD_COLOUR_GREENLIGHT", "rgba(185, 230, 185, 255)"),
  ("HUD_COLOUR_GREENDARK", "rgba(57, 102, 57, 255)"),
  ("HUD_COLOUR_PURPLE", "rgba(132, 102, 226, 255)"),
  ("HUD_COLOUR_PURPLELIGHT", "rgba(192, 179, 239, 255)"),
  ("HUD_COLOUR_PURPLEDARK", "rgba(67, 57, 111, 255)"),
  ("HUD_COLOUR_PINK", "rgba(203, 54, 148, 255)"),
  ("HUD_COLOUR_RADAR_HEALTH", "rgba(53, 154, 71, 255)"),
  ("HUD_COLOUR_RADAR_ARMOUR", "rgba(93, 182, 229, 255)"),
  ("HUD_COLOUR_RADAR_DAMAGE", "rgba(235, 36, 39, 255)"),
  ("HUD_COLOUR_NET_PLAYER1", "rgba(194, 80, 80, 255)"),
  ("HUD_COLOUR_NET_PLAYER2", "rgba(156, 110, 175, 255)"),
  ("HUD_COLOUR_NET_PLAYER3", "rgba(255, 123, 196, 255)"),
  ("HUD_COLOUR_NET_PLAYER4", "rgba(247, 159, 123, 255)"),
  ("HUD_COLOUR_NET_PLAYER5", "rgba(178, 144, 132, 255)"),
  ("HUD_COLOUR_NET_PLAYER6", "rgba(141, 206, 167, 255)"),
  ("HUD_COLOUR_NET_PLAYER7", "rgba(113, 169, 175, 255)"),
  ("HUD_COLOUR_NET_PLAYER8", "rgba(211, 209, 231, 255)"),
  ("HUD_COLOUR_NET_PLAYER9", "rgba(144, 127, 153, 255)"),
  ("HUD_COLOUR_NET_PLAYER10", "rgba(106, 196, 191, 255)"),
  ("HUD_COLOUR_NET_PLAYER11", "rgba(214, 196, 153, 255)"),
  ("HUD_COLOUR_NET_PLAYER12", "rgba(234, 142, 80, 255)"),
  ("HUD_COLOUR_NET_PLAYER13", "rgba(152, 203, 234, 255)"),
  ("HUD_COLOUR_NET_PLAYER14", "rgba(178, 98, 135, 255)"),
  ("HUD_COLOUR_NET_PLAYER15", "rgba(144, 142, 122, 255)"),
  ("HUD_COLOUR_NET_PLAYER16", "rgba(166, 117, 94, 255)"),
  ("HUD_COLOUR_NET_PLAYER17", "rgba(175, 168, 168, 255)"),
  ("HUD_COLOUR_NET_PLAYER18", "rgba(232, 142, 155, 255)"),
  ("HUD_COLOUR_NET_PLAYER19", "rgba(187, 214, 91, 255)"),
  ("HUD_COLOUR_NET_PLAYER20", "rgba(12, 123, 86, 255)"),
  ("HUD_COLOUR_NET_PLAYER21", "rgba(123, 196, 255, 255)"),
  ("HUD_COLOUR_NET_PLAYER22", "rgba(171, 60, 230, 255)"),
  ("HUD_COLOUR_NET_PLAYER23", "rgba(206, 169, 13, 255)"),
  ("HUD_COLOUR_NET_PLAYER24", "rgba(71, 99, 173, 255)"),
  ("HUD_COLOUR_NET_PLAYER25", "rgba(42, 166, 185, 255)"),
  ("HUD_COLOUR_NET_PLAYER26", "rgba(186, 157, 125, 255)"),
  ("HUD_COLOUR_NET_PLAYER27", "rgba(201, 225, 255, 255)"),
  ("HUD_COLOUR_NET_PLAYER28", "rgba(240, 240, 150, 255)"),
  ("HUD_COLOUR_NET_PLAYER29", "rgba(237, 140, 161, 255)"),
  ("HUD_COLOUR_NET_PLAYER30", "rgba(249, 138, 138, 255)"),
  ("HUD_COLOUR_NET_PLAYER31", "rgba(252, 239, 166, 255)"),
  ("HUD_COLOUR_NET_PLAYER32", "rgba(240, 240, 240, 255)"),
  ("HUD_COLOUR_SIMPLEBLIP_DEFAULT", "rgba(159, 201, 166, 255)"),
  ("HUD_COLOUR_MENU_BLUE", "rgba(140, 140, 140, 255)"),
  ("HUD_COLOUR_MENU_GREY_LIGHT", "rgba(140, 140, 140, 255)"),
  ("HUD_COLOUR_MENU_BLUE_EXTRA_DARK", "rgba(40, 40, 40, 255)"),
  ("HUD_COLOUR_MENU_YELLOW", "rgba(240, 160, 0, 255)"),
  ("HUD_COLOUR_MENU_YELLOW_DARK", "rgba(240, 160, 0, 255)"),
  ("HUD_COLOUR_MENU_GREEN", "rgba(240, 160, 0, 255)"),
  ("HUD_COLOUR_MENU_GREY", "rgba(140, 140, 140, 255)"),
  ("HUD_COLOUR_MENU_GREY_DARK", "rgba(60, 60, 60, 255)"),
  ("HUD_COLOUR_MENU_HIGHLIGHT", "rgba(30, 30, 30, 255)"),
  ("HUD_COLOUR_MENU_STANDARD", "rgba(140, 140, 140, 255)"),
  ("HUD_COLOUR_MENU_DIMMED", "rgba(75, 75, 75, 255)"),
  ("HUD_COLOUR_MENU_EXTRA_DIMMED", "rgba(50, 50, 50, 255)"),
  ("HUD_COLOUR_BRIEF_TITLE", "rgba(95, 95, 95, 255)"),
  ("HUD_COLOUR_MID_GREY_MP", "rgba(100, 100, 100, 255)"),
  ("HUD_COLOUR_NET_PLAYER1_DARK", "rgba(93, 39, 39, 255)"),
  ("HUD_COLOUR_NET_PLAYER2_DARK", "rgba(77, 55, 89, 255)"),
  ("HUD_COLOUR_NET_PLAYER3_DARK", "rgba(124, 62, 99, 255)"),
  ("HUD_COLOUR_NET_PLAYER4_DARK", "rgba(120, 80, 80, 255)"),
  ("HUD_COLOUR_NET_PLAYER5_DARK", "rgba(87, 72, 66, 255)"),
  ("HUD_COLOUR_NET_PLAYER6_DARK", "rgba(74, 103, 83, 255)"),
  ("HUD_COLOUR_NET_PLAYER7_DARK", "rgba(60, 85, 88, 255)"),
  ("HUD_COLOUR_NET_PLAYER8_DARK", "rgba(105, 105, 64, 255)"),
  ("HUD_COLOUR_NET_PLAYER9_DARK", "rgba(72, 63, 76, 255)"),
  ("HUD_COLOUR_NET_PLAYER10_DARK", "rgba(53, 98, 95, 255)"),
  ("HUD_COLOUR_NET_PLAYER11_DARK", "rgba(107, 98, 76, 255)"),
  ("HUD_COLOUR_NET_PLAYER12_DARK", "rgba(117, 71, 40, 255)"),
  ("HUD_COLOUR_NET_PLAYER13_DARK", "rgba(76, 101, 117, 255)"),
  ("HUD_COLOUR_NET_PLAYER14_DARK", "rgba(65, 35, 47, 255)"),
  ("HUD_COLOUR_NET_PLAYER15_DARK", "rgba(72, 71, 61, 255)"),
  ("HUD_COLOUR_NET_PLAYER16_DARK", "rgba(85, 58, 47, 255)"),
  ("HUD_COLOUR_NET_PLAYER17_DARK", "rgba(87, 84, 84, 255)"),
  ("HUD_COLOUR_NET_PLAYER18_DARK", "rgba(116, 71, 77, 255)"),
  ("HUD_COLOUR_NET_PLAYER19_DARK", "rgba(93, 107, 45, 255)"),
  ("HUD_COLOUR_NET_PLAYER20_DARK", "rgba(6, 61, 43, 255)"),
  ("HUD_COLOUR_NET_PLAYER21_DARK", "rgba(61, 98, 127, 255)"),
  ("HUD_COLOUR_NET_PLAYER22_DARK", "rgba(85, 30, 115, 255)"),
  ("HUD_COLOUR_NET_PLAYER23_DARK", "rgba(103, 84, 6, 255)"),
  ("HUD_COLOUR_NET_PLAYER24_DARK", "rgba(35, 49, 86, 255)"),
  ("HUD_COLOUR_NET_PLAYER25_DARK", "rgba(21, 83, 92, 255)"),
  ("HUD_COLOUR_NET_PLAYER26_DARK", "rgba(93, 98, 62, 255)"),
  ("HUD_COLOUR_NET_PLAYER27_DARK", "rgba(100, 112, 127, 255)"),
  ("HUD_COLOUR_NET_PLAYER28_DARK", "rgba(120, 120, 75, 255)"),
  ("HUD_COLOUR_NET_PLAYER29_DARK", "rgba(152, 76, 93, 255)"),
  ("HUD_COLOUR_NET_PLAYER30_DARK", "rgba(124, 69, 69, 255)"),
  ("HUD_COLOUR_NET_PLAYER31_DARK", "rgba(10, 43, 50, 255)"),
  ("HUD_COLOUR_NET_PLAYER32_DARK", "rgba(95, 95, 10, 255)"),
  ("HUD_COLOUR_BRONZE", "rgba(180, 130, 97, 255)"),
  ("HUD_COLOUR_SILVER", "rgba(150, 153, 161, 255)"),
  ("HUD_COLOUR_GOLD", "rgba(214, 181, 99, 255)"),
  ("HUD_COLOUR_PLATINUM", "rgba(166, 221, 190, 255)"),
  ("HUD_COLOUR_GANG1", "rgba(29, 100, 153, 255)"),
  ("HUD_COLOUR_GANG2", "rgba(214, 116, 15, 255)"),
  ("HUD_COLOUR_GANG3", "rgba(135, 125, 142, 255)"),
  ("HUD_COLOUR_GANG4", "rgba(229, 119, 185, 255)"),
  ("HUD_COLOUR_SAME_CREW", "rgba(252, 239, 166, 255)"),
  ("HUD_COLOUR_FREEMODE", "rgba(45, 110, 185, 255)"),
  ("HUD_COLOUR_PAUSE_BG", "rgba(0, 0, 0, 186)"),
  ("HUD_COLOUR_FRIENDLY", "rgba(93, 182, 229, 255)"),
  ("HUD_COLOUR_ENEMY", "rgba(194, 80, 80, 255)"),
  ("HUD_COLOUR_LOCATION", "rgba(240, 200, 80, 255)"),
  ("HUD_COLOUR_PICKUP", "rgba(114, 204, 114, 255)"),
  ("HUD_COLOUR_PAUSE_SINGLEPLAYER", "rgba(114, 204, 114, 255)"),
  ("HUD_COLOUR_FREEMODE_DARK", "rgba(22, 55, 92, 255)"),
  ("HUD_COLOUR_INACTIVE_MISSION", "rgba(154, 154, 154, 255)"),
  ("HUD_COLOUR_DAMAGE", "rgba(194, 80, 80, 255)"),
  ("HUD_COLOUR_PINKLIGHT", "rgba(252, 115, 201, 255)"),
  ("HUD_COLOUR_PM_MITEM_HIGHLIGHT", "rgba(252, 177, 49, 255)"),
  ("HUD_COLOUR_SCRIPT_VARIABLE", "rgba(0, 0, 0, 255)"),
  ("HUD_COLOUR_YOGA", "rgba(109, 247, 204, 255)"),
  ("HUD_COLOUR_TENNIS", "rgba(241, 101, 34, 255)"),
  ("HUD_COLOUR_GOLF", "rgba(214, 189, 97, 255)"),
  ("HUD_COLOUR_SHOOTING_RANGE", "rgba(112, 25, 25, 255)"),
  ("HUD_COLOUR_FLIGHT_SCHOOL", "rgba(47, 92, 115, 255)"),
  ("HUD_COLOUR_NORTH_BLUE", "rgba(93, 182, 229, 255)"),
  ("HUD_COLOUR_SOCIAL_CLUB", "rgba(234, 153, 28, 255)"),
  ("HUD_COLOUR_PLATFORM_BLUE", "rgba(11, 55, 123, 255)"),
  ("HUD_COLOUR_PLATFORM_GREEN", "rgba(146, 200, 62, 255)"),
  ("HUD_COLOUR_PLATFORM_GREY", "rgba(234, 153, 28, 255)"),
  ("HUD_COLOUR_FACEBOOK_BLUE", "rgba(66, 89, 148, 255)"),
  ("HUD_COLOUR_INGAME_BG", "rgba(0, 0, 0, 186)"),
  ("HUD_COLOUR_DARTS", "rgba(114, 204, 114, 255)"),
  ("HUD_COLOUR_WAYPOINT", "rgba(164, 76, 242, 255)"),
  ("HUD_COLOUR_MICHAEL", "rgba(101, 180, 212, 255)"),
  ("HUD_COLOUR_FRANKLIN", "rgba(171, 237, 171, 255)"),
  ("HUD_COLOUR_TREVOR", "rgba(255, 163, 87, 255)"),
  ("HUD_COLOUR_GOLF_P1", "rgba(240, 240, 240, 255)"),
  ("HUD_COLOUR_GOLF_P2", "rgba(235, 239, 30, 255)"),
  ("HUD_COLOUR_GOLF_P3", "rgba(255, 149, 14, 255)"),
  ("HUD_COLOUR_GOLF_P4", "rgba(246, 60, 161, 255)"),
  ("HUD_COLOUR_WAYPOINTLIGHT", "rgba(210, 166, 249, 255)"),
  ("HUD_COLOUR_WAYPOINTDARK", "rgba(82, 38, 121, 255)"),
  ("HUD_COLOUR_PANEL_LIGHT", "rgba(0, 0, 0, 77)"),
  ("HUD_COLOUR_MICHAEL_DARK", "rgba(72, 103, 116, 255)"),
  ("HUD_COLOUR_FRANKLIN_DARK", "rgba(85, 118, 85, 255)"),
  ("HUD_COLOUR_TREVOR_DARK", "rgba(127, 81, 43, 255)"),
  ("HUD_COLOUR_OBJECTIVE_ROUTE", "rgba(240, 200, 80, 255)"),
  ("HUD_COLOUR_PAUSEMAP_TINT", "rgba(0, 0, 0, 215)"),
  ("HUD_COLOUR_PAUSE_DESELECT", "rgba(100, 100, 100, 127)"),
  ("HUD_COLOUR_PM_WEAPONS_PURCHASABLE", "rgba(45, 110, 185, 255)"),
  ("HUD_COLOUR_PM_WEAPONS_LOCKED", "rgba(240, 240, 240, 191)"),
  ("HUD_COLOUR_END_SCREEN_BG", "rgba(0, 0, 0, 186)"),
  ("HUD_COLOUR_CHOP", "rgba(224, 50, 50, 255)"),
  ("HUD_COLOUR_PAUSEMAP_TINT_HALF", "rgba(0, 0, 0, 215)"),
  ("HUD_COLOUR_NORTH_BLUE_OFFICIAL", "rgba(0, 71, 133, 255)"),
  ("HUD_COLOUR_SCRIPT_VARIABLE_2", "rgba(0, 0, 0, 255)"),
  ("HUD_COLOUR_H", "rgba(33, 118, 37, 255)"),
  ("HUD_COLOUR_HDARK", "rgba(37, 102, 40, 255)"),
  ("HUD_COLOUR_T", "rgba(234, 153, 28, 255)"),
  ("HUD_COLOUR_TDARK", "rgba(225, 140, 8, 255)"),
  ("HUD_COLOUR_HSHARD", "rgba(20, 40, 0, 255)"),
  ("HUD_COLOUR_CONTROLLER_MICHAEL", "rgba(48, 255, 255, 255)"),
  ("HUD_COLOUR_CONTROLLER_FRANKLIN", "rgba(48, 255, 0, 255)"),
  ("HUD_COLOUR_CONTROLLER_TREVOR", "rgba(176, 80, 0, 255)"),
  ("HUD_COLOUR_CONTROLLER_CHOP", "rgba(127, 0, 0, 255)"),
  ("HUD_COLOUR_VIDEO_EDITOR_VIDEO", "rgba(53, 166, 224, 255)"),
  ("HUD_COLOUR_VIDEO_EDITOR_AUDIO", "rgba(162, 79, 157, 255)"),
  ("HUD_COLOUR_VIDEO_EDITOR_TEXT", "rgba(104, 192, 141, 255)"),
  ("HUD_COLOUR_HB_BLUE", "rgba(29, 100, 153, 255)"),
  ("HUD_COLOUR_HB_YELLOW", "rgba(234, 153, 28, 255)"),
  ("HUD_COLOUR_VIDEO_EDITOR_SCORE", "rgba(240, 160, 1, 255)"),
  ("HUD_COLOUR_VIDEO_EDITOR_AUDIO_FADEOUT", "rgba(59, 34, 57, 255)"),
  ("HUD_COLOUR_VIDEO_EDITOR_TEXT_FADEOUT", "rgba(41, 68, 53, 255)"),
  ("HUD_COLOUR_VIDEO_EDITOR_SCORE_FADEOUT", "rgba(82, 58, 10, 255)"),
  ("HUD_COLOUR_HEIST_BACKGROUND", "rgba(37, 102, 40, 186)"),
  ("HUD_COLOUR_VIDEO_EDITOR_AMBIENT", "rgba(240, 200, 80, 255)"),
  ("HUD_COLOUR_VIDEO_EDITOR_AMBIENT_FADEOUT", "rgba(80, 70, 34, 255)"),
  ("HUD_COLOUR_VIDEO_EDITOR_AMBIENT_DARK", "rgba(255, 133, 85, 255)"),
  ("HUD_COLOUR_VIDEO_EDITOR_AMBIENT_LIGHT", "rgba(255, 194, 170, 255)"),
  ("HUD_COLOUR_VIDEO_EDITOR_AMBIENT_MID", "rgba(255, 133, 85, 255)"),
  ("HUD_COLOUR_LOW_FLOW", "rgba(240, 200, 80, 255)"),
  ("HUD_COLOUR_LOW_FLOW_DARK", "rgba(126, 107, 41, 255)"),
  ("HUD_COLOUR_G1", "rgba(247, 159, 123, 255)"),
  ("HUD_COLOUR_G2", "rgba(226, 134, 187, 255)"),
  ("HUD_COLOUR_G3", "rgba(239, 238, 151, 255)"),
  ("HUD_COLOUR_G4", "rgba(113, 169, 175, 255)"),
  ("HUD_COLOUR_G5", "rgba(160, 140, 193, 255)"),
  ("HUD_COLOUR_G6", "rgba(141, 206, 167, 255)"),
  ("HUD_COLOUR_G7", "rgba(181, 214, 234, 255)"),
  ("HUD_COLOUR_G8", "rgba(178, 144, 132, 255)"),
  ("HUD_COLOUR_G9", "rgba(0, 132, 114, 255)"),
  ("HUD_COLOUR_G10", "rgba(216, 85, 117, 255)"),
  ("HUD_COLOUR_G11", "rgba(30, 100, 152, 255)"),
  ("HUD_COLOUR_G12", "rgba(43, 181, 117, 255)"),
  ("HUD_COLOUR_G13", "rgba(233, 141, 79, 255)"),
  ("HUD_COLOUR_G14", "rgba(137, 210, 215, 255)"),
  ("HUD_COLOUR_G15", "rgba(134, 125, 141, 255)"),
  ("HUD_COLOUR_ADVERSARY", "rgba(109, 34, 33, 255)"),
  ("HUD_COLOUR_DEGEN_RED", "rgba(255, 0, 0, 255)"),
  ("HUD_COLOUR_DEGEN_YELLOW", "rgba(255, 255, 0, 255)"),
  ("HUD_COLOUR_DEGEN_GREEN", "rgba(0, 255, 0, 255)"),
  ("HUD_COLOUR_DEGEN_CYAN", "rgba(0, 255, 255, 255)"),
  ("HUD_COLOUR_DEGEN_BLUE", "rgba(0, 0, 255, 255)"),
  ("HUD_COLOUR_DEGEN_MAGENTA", "rgba(255, 0, 255, 255)"),
  ("HUD_COLOUR_STUNT_1", "rgba(38, 136, 234, 255)"),
  ("HUD_COLOUR_STUNT_2", "rgba(224, 50, 50, 255)"),
  ("HUD_COLOUR_SPECIAL_RACE_SERIES", "rgba(154, 178, 54, 255)"),
  ("HUD_COLOUR_SPECIAL_RACE_SERIES_DARK", "rgba(93, 107, 45, 255)"),
  ("HUD_COLOUR_CS", "rgba(206, 169, 13, 255)"),
  ("HUD_COLOUR_CS_DARK", "rgba(103, 84, 6, 255)"),
  ("HUD_COLOUR_TECH_GREEN", "rgba(0, 151, 151, 255)"),
  ("HUD_COLOUR_TECH_GREEN_DARK", "rgba(5, 119, 113, 255)"),
  ("HUD_COLOUR_TECH_RED", "rgba(151, 0, 0, 255)"),
  ("HUD_COLOUR_TECH_GREEN_VERY_DARK", "rgba(0, 40, 40, 255)"),
  ("HUD_COLOUR_PLACEHOLDER_01", "rgba(255, 255, 255, 255)"),
  ("HUD_COLOUR_PLACEHOLDER_02", "rgba(255, 255, 255, 255)"),
  ("HUD_COLOUR_PLACEHOLDER_03", "rgba(255, 255, 255, 255)"),
  ("HUD_COLOUR_PLACEHOLDER_04", "rgba(255, 255, 255, 255)"),
  ("HUD_COLOUR_PLACEHOLDER_05", "rgba(255, 255, 255, 255)"),
  ("HUD_COLOUR_PLACEHOLDER_06", "rgba(255, 255, 255, 255)"),
  ("HUD_COLOUR_PLACEHOLDER_07", "rgba(255, 255, 255, 255)"),
  ("HUD_COLOUR_PLACEHOLDER_08", "rgba(255, 255, 255, 255)"),
  ("HUD_COLOUR_PLACEHOLDER_09", "rgba(255, 255, 255, 255)"),
  ("HUD_COLOUR_PLACEHOLDER_10", "rgba(255, 255, 255, 255)")]

/-- The ordered rewrite table `GTA_FORMAT_REPLACEMENT_TABLE` of `validator.py`.
Each source row `[r"~c~", '~HUD_COLOUR_NAME~']` is represented by the pair of
the pattern's middle character `c` and the full replacement text; every
pattern is the literal three-character string `~c~`. -/
def GTA_FORMAT_REPLACEMENT_TABLE : List (Char × List Char) :=
  [('r', toL "~HUD_COLOUR_RED~"),
   ('g', toL "~HUD_COLOUR_GREEN~"),
   ('b', toL "~HUD_COLOUR_BLUE~"),
   ('f', toL "~HUD_COLOUR_FRIENDLY~"),
   ('y', toL "~HUD_COLOUR_YELLOW~"),
   ('c', toL "~HUD_COLOUR_MENU_GREY~"),
   ('t', toL "~HUD_COLOUR_MENU_GREY~"),
   ('o', toL "~HUD_COLOUR_ORANGE~"),
   ('p', toL "~HUD_COLOUR_PURPLE~"),
   ('q', toL "~HUD_COLOUR_PINK~"),
   ('m', toL "~HUD_COLOUR_MID_GREY_MP~"),
   ('l', toL "~HUD_COLOUR_BLACK~"),
   ('d', toL "~HUD_COLOUR_BLUEDARK~"),
   ('s', toL "~HUD_COLOUR_GREYLIGHT~")]

/-- Scanner state for `subst`: how much of a potential occurrence of the
three-character pattern `~c~` is pending at the current position. -/
inductive SubstState where
  | start
  | sawTilde
  | sawTildeChar (d : Char)
deriving DecidableEq, Repr

/-- Left-to-right scanner for `re.sub(r"~c~", repl, text)`.  In state
`sawTilde` a `~` is pending; in state `sawTildeChar d` the two characters
`~d` (with `d ≠ '~'`) are pending.  When the pending `~d` is followed by `~`
and `d = c`, the occurrence is replaced and (non-overlapping, as in Python)
the scan restarts after the closing `~`; on a failed match the pending
characters are emitted unchanged and the scan resumes at the position that
follows them, exactly like Python's shift-by-one rescan. -/
def substS (c : Char) (repl : List Char) : SubstState → List Char → List Char
  | .start, [] => []
  | .sawTilde, [] => ['~']
  | .sawTildeChar d, [] => ['~', d]
  | .start, x :: rest =>
    if x = '~' then substS c repl .sawTilde rest
    else x :: substS c repl .start rest
  | .sawTilde, x :: rest =>
    if x = '~' then '~' :: substS c repl .sawTilde rest
    else substS c repl (.sawTildeChar x) rest
  | .sawTildeChar d, x :: rest =>
    if x = '~' then
      if d = c then repl ++ substS c repl .start rest
      else '~' :: d :: substS c repl .sawTilde rest
    else '~' :: d :: x :: substS c repl .start rest

/-- Model of `re.sub(r"~c~", repl, text)` for one rewrite rule: replace every
non-overlapping occurrence of the literal pattern `~c~` left to right,
continuing the scan after each inserted replacement. -/
def subst (c : Char) (repl : List Char) (text : List Char) : List Char :=
  substS c repl .start text

/-- Model of `regex_replace_multiple(text, replacement_table)`: apply each
rewrite rule of the table once, in table order. -/
def regex_replace_multiple (text : List Char) (table : List (Char × List Char)) :
    List Char :=
  table.foldl (fun s p => subst p.1 p.2 s) text

/-- Match a literal pattern at the start of the text, returning the remainder
after it. -/
def stripPre : List Char → List Char → Option (List Char)
  | [], t => some t
  | _ :: _, [] => none
  | p :: ps, x :: rest => if x = p then stripPre ps rest else none

/-- Scan for the first `~`, as the non-greedy `.+?` of the color-directive
patterns does: return the characters before it and the remainder after it,
failing if a newline (which `.` does not match) or the end of the text is
reached first. -/
def scanTilde : List Char → Option (List Char × List Char)
  | [] => none
  | x :: rest =>
    if x = '~' then some ([], rest)
    else if x = '\n' then none
    else (scanTilde rest).map (fun q => (x :: q.1, q.2))

/-- One literal alternative of `GROUP_REGEX` at the current position. -/
def litAlt (lit t : List Char) : Option (List Char × List Char) :=
  (stripPre lit t).map (fun r => (lit, r))

/-- The alternatives `~HUD_COLOUR_.+?~` and `~HC_.+?~` of `GROUP_REGEX` at the
current position: the fixed opening, a non-greedy nonempty run of non-newline
characters, and the closing `~`. -/
def tildeNameAlt (pre t : List Char) : Option (List Char × List Char) :=
  match stripPre pre t with
  | none => none
  | some r =>
    match r with
    | [] => none
    | x :: r2 =>
      if x = '\n' then none
      else
        match scanTilde r2 with
        | none => none
        | some q => some (pre ++ x :: q.1 ++ ['~'], q.2)

/-- Maximal run of decimal digits and the remainder after it. -/
def digitRun (t : List Char) : List Char × List Char :=
  (t.takeWhile isDigitCh, t.dropWhile isDigitCh)

/-- The alternative `~CC_[0-9]{1,3}_[0-9]{1,3}_[0-9]{1,3}~` of `GROUP_REGEX`
at the current position.  The greedy `{1,3}` with backtracking against the
required following delimiter succeeds exactly when the maximal digit run has
length 1 to 3 and is followed by the delimiter. -/
def ccAlt (t : List Char) : Option (List Char × List Char) :=
  match stripPre (toL "~CC_") t with
  | none => none
  | some r =>
    let q1 := digitRun r
    if q1.1.length < 1 ∨ 3 < q1.1.length then none
    else
      match q1.2 with
      | '_' :: r2 =>
        let q2 := digitRun r2
        if q2.1.length < 1 ∨ 3 < q2.1.length then none
        else
          match q2.2 with
          | '_' :: r4 =>
            let q3 := digitRun r4
            if q3.1.length < 1 ∨ 3 < q3.1.length then none
            else
              match q3.2 with
              | '~' :: r6 =>
                some (toL "~CC_" ++ q1.1 ++ '_' :: q2.1 ++ '_' :: q3.1 ++ ['~'], r6)
              | _ => none
          | _ => none
      | _ => none

/-- One attempt of the union pattern
`GROUP_REGEX = r"~h~|~n~|~bold~|~italic~|\(C\)|\(\/C\)|~HUD_COLOUR_.+?~|~HC_.+?~|~CC_[0-9]{1,3}_[0-9]{1,3}_[0-9]{1,3}~"`
at the current position, trying the alternatives in pattern order as Python
does and returning the matched literal and the remainder after it. -/
def matchDirective (t : List Char) : Option (List Char × List Char) :=
  (litAlt (toL "~h~") t).orElse fun _ =>
  (litAlt (toL "~n~") t).orElse fun _ =>
  (litAlt (toL "~bold~") t).orElse fun _ =>
  (litAlt (toL "~italic~") t).orElse fun _ =>
  (litAlt (toL "(C)") t).orElse fun _ =>
  (litAlt (toL "(/C)") t).orElse fun _ =>
  (tildeNameAlt (toL "~HUD_COLOUR_") t).orElse fun _ =>
  (tildeNameAlt (toL "~HC_") t).orElse fun _ =>
  ccAlt t

/-- Fuel-indexed model of `re.split(GROUP_REGEX, text)` interleaved with
`re.findall(GROUP_REGEX, text)`: returns the first plain-text fragment and
the list of (matched directive, following fragment) pairs, scanning left to
right and continuing after each non-overlapping match.  Every step consumes
at least one character, so `fuel = length` is always enough. -/
def splitFmtF : Nat → List Char → List Char × List (List Char × List Char)
  | 0, t => (t, [])
  | fuel + 1, t =>
    match matchDirective t with
    | some q =>
      let p := splitFmtF fuel q.2
      ([], (q.1, p.1) :: p.2)
    | none =>
      match t with
      | [] => ([], [])
      | x :: rest =>
        let p := splitFmtF fuel rest
        (x :: p.1, p.2)

/-- The tokenizer of `formatted_string_to_html` /
`add_formatted_text_to_html`: `text_fragments` and `matchedActions` combined
into (first fragment, list of (directive, following fragment)). -/
def splitFmt (t : List Char) : List Char × List (List Char × List Char) :=
  splitFmtF t.length t

/-- Concatenation of all fragments and directive literals of a tokenizer
result, in order. -/
def splitJoin (q : List Char × List (List Char × List Char)) : List Char :=
  q.1 ++ (q.2.map (fun p => p.1 ++ p.2)).flatten

/-- The non-greedy `.+?` of the inner color-name pattern followed by the
lookahead `(?=~)`: at least one non-newline character up to (but not
consuming) the first `~`. -/
def dotPlusLookTilde : List Char → Option (List Char)
  | [] => none
  | x :: rest =>
    if x = '\n' then none
    else (scanTilde rest).map (fun q => x :: q.1)

/-- First match of the inner pattern
`r"(?<=~)(HUD_COLOUR_.+?)(?=~)|(?<=~)(HC_.+?)(?=~)"` on a directive literal:
scan positions left to right carrying the previous character (the lookbehind),
try the two alternatives in order, and return the pair of capture groups of
the first match (the unused group is empty, as in Python's `findall`).
`prev` is the character before the current position; the initial call passes
a non-`~` dummy since position 0 has no preceding character. -/
def innerColorScan (prev : Char) : List Char → Option (List Char × List Char)
  | [] => none
  | x :: rest =>
    if prev = '~' then
      match (stripPre (toL "HUD_COLOUR_") (x :: rest)).bind dotPlusLookTilde with
      | some name => some (toL "HUD_COLOUR_" ++ name, [])
      | none =>
        match (stripPre (toL "HC_") (x :: rest)).bind dotPlusLookTilde with
        | some name => some ([], toL "HC_" ++ name)
        | none => innerColorScan x rest
    else innerColorScan x rest

/-- Whether `[0-9]{1,3}_[0-9]{1,3}_[0-9]{1,3}(?=~)` matches at the current
position (used after the lookbehind `(?<=~CC_)`). -/
def ccInnerB (l : List Char) : Bool :=
  let q1 := digitRun l
  if q1.1.length < 1 ∨ 3 < q1.1.length then false
  else
    match q1.2 with
    | '_' :: r2 =>
      let q2 := digitRun r2
      if q2.1.length < 1 ∨ 3 < q2.1.length then false
      else
        match q2.2 with
        | '_' :: r4 =>
          let q3 := digitRun r4
          if q3.1.length < 1 ∨ 3 < q3.1.length then false
          else
            match q3.2 with
            | '~' :: _ => true
            | _ => false
        | _ => false
    | _ => false

/-- Whether `re.findall(r"(?<=~CC_)([0-9]{1,3}_[0-9]{1,3}_[0-9]{1,3})(?=~)", f)`
finds a match: scan every position, checking the four-character lookbehind
`~CC_` (tracked in `w` as the reversed window of the last up-to-four
characters consumed). -/
def ccScan (w : List Char) : List Char → Bool
  | [] => false
  | x :: rest =>
    ((w == ['_', 'C', 'C', '~']) && ccInnerB (x :: rest)) || ccScan ((x :: w).take 4) rest

/-- The mutable state of the style loop in `formatted_string_to_html` /
`add_formatted_text_to_html`. -/
structure StyleState where
  bolded : Bool
  italic : Bool
  color : String
  condensed : Int
  newLine : Bool
deriving DecidableEq, Repr

/-- Initial style state: `bolded = italic = False`,
`color = "rgb(205,205,205)"`, `condensed = 0`, `new_line = False`. -/
def initialStyleState : StyleState :=
  { bolded := false, italic := false, color := "rgb(205,205,205)",
    condensed := 0, newLine := false }

/-- One step of the `match formatting:` dispatch of the style loop, in source
case order.  The default case models the Python failure modes exactly:
looking up a name that is not a key of `GTA_HUD_COLORS` raises `KeyError`
(in particular every `~HC_...~` directive, whose first capture group is
empty), and a matched custom color raises `AttributeError` because
`list.join` does not exist in Python (`split("_").join(",")`); both are
modelled as `none`. -/
def styleStep (st : StyleState) (f : List Char) : Option StyleState :=
  if f = toL "~h~" ∨ f = toL "~bold~" then some { st with bolded := !st.bolded }
  else if f = toL "~italic~" then some { st with italic := !st.italic }
  else if f = toL "(C)" then some { st with condensed := st.condensed + 1 }
  else if f = toL "(/C)" then some { st with condensed := st.condensed - 1 }
  else if f = toL "~n~" then some { st with newLine := !st.newLine }
  else
    match innerColorScan 'A' f with
    | some g =>
      match GTA_HUD_COLORS.lookup (String.mk g.1) with
      | some cval => if ccScan [] f then none else some { st with color := cval }
      | none => none
    | none => if ccScan [] f then none else some st

/-- One output item of the preview renderer: a styled text span (with the
`condensed`/`bolded` classes and the italic/color style of the state after
the preceding directive) or a line break. -/
inductive HtmlItem where
  | span (text : List Char) (condensed bolded italic : Bool) (color : String)
  | br
deriving DecidableEq, Repr

/-- The style loop over the (directive, following fragment) pairs: update the
state by the directive, then emit the fragment (if nonempty) with the updated
state and a break if the `new_line` flag is set.  `none` models an uncaught
Python exception inside the loop. -/
def runStyle : StyleState → List (List Char × List Char) → Option (List HtmlItem)
  | _, [] => some []
  | st, (d, frag) :: rest =>
    match styleStep st d with
    | none => none
    | some st2 =>
      match runStyle st2 rest with
      | none => none
      | some items =>
        some (((if frag ≠ [] then
                  [HtmlItem.span frag (decide (st2.condensed > 0)) st2.bolded st2.italic st2.color]
                else []) ++
               (if st2.newLine then [HtmlItem.br] else [])) ++ items)

/-- `formatted_string_to_html` (`lib/html_preview.py`), equivalently
`Validator.add_formatted_text_to_html` (`validator.py`): rewrite shorthands,
tokenize on `GROUP_REGEX`, emit the first fragment with the initial color,
then run the style loop.  `none` models an uncaught Python exception. -/
def formatted_string_to_html (text : List Char) : Option (List HtmlItem) :=
  let t := regex_replace_multiple text GTA_FORMAT_REPLACEMENT_TABLE
  let q := splitFmt t
  match runStyle initialStyleState q.2 with
  | none => none
  | some items =>
    some ((if q.1 ≠ [] then
             [HtmlItem.span q.1 false false false initialStyleState.color]
           else []) ++ items)

/-- Whether the style loop raises on this directive literal: the failure of
`styleStep` does not depend on the incoming state. -/
def directiveFails (f : List Char) : Bool :=
  if f = toL "~h~" ∨ f = toL "~bold~" ∨ f = toL "~italic~" ∨ f = toL "(C)" ∨
     f = toL "(/C)" ∨ f = toL "~n~" then false
  else
    match innerColorScan 'A' f with
    | some g => (GTA_HUD_COLORS.lookup (String.mk g.1)).isNone || ccScan [] f
    | none => ccScan [] f

/-- Modelled from the spec: the duplicate-directive check of §4.5 is not part
of `Validator.check_entries` in `src/validator.py` (the repository's library
variant of the validator is not under `src/`); per the spec, the exemption
set consists of the directives legitimately repeated back-to-back, the
toggle/newline short forms `~h~` and `~n~`. -/
def duplicateExemption : List (List Char) := [toL "~h~", toL "~n~"]

/-- Modelled from the spec: first index `i` with `found[i] == found[i+1]` for
consecutive found short-format directives, excluding the exemption set. -/
def findDuplicate : List (List Char) → Option Nat
  | a :: b :: rest =>
    if a = b ∧ a ∉ duplicateExemption then some 0
    else (findDuplicate (b :: rest)).map (· + 1)
  | _ => none

/-- Modelled from the spec: the duplicate check, only evaluated when the Entry
has a formatting requirement. -/
def duplicateCheck (hasRequirement : Bool) (found : List (List Char)) : Option Nat :=
  if hasRequirement then findDuplicate found else none

/-- The diagnostic kinds gated by the Entry formatting requirement
(invalid / missing / terminal). -/
def isFormattingDiag : DiagKind → Bool
  | .invalidFormatting _ => true
  | .missingFormatting _ => true
  | .wrongEnd _ _ => true
  | _ => false

/-- The placeholder-variable diagnostic kinds. -/
def isVariableDiag : DiagKind → Bool
  | .missingVariables _ => true
  | .unneededVariables _ => true
  | _ => false

/-- The tail of `subst` applied to a text with one extra leading `~`: the
state of a rewrite pass that has already consumed an unmatched `~`. -/
def substTail (c : Char) (repl : List Char) (s : List Char) : List Char :=
  (subst c repl ('~' :: s)).tail

/-! ### Lemmas about the one-rule rewrite `subst` -/

theorem substS_start_tilde (c : Char) (repl : List Char) (t : List Char) :
    substS c repl .start ('~' :: t) = substS c repl .sawTilde t := by
  simp [substS]

theorem subst_cons_of_ne (c : Char) (repl : List Char) {x : Char} (hx : x ≠ '~')
    (t : List Char) : subst c repl (x :: t) = x :: subst c repl t := by
  simp [subst, substS, hx]

theorem substS_pending_of_ne (c : Char) (repl : List Char) {e : Char} (he : e ≠ c)
    (t : List Char) :
    substS c repl (.sawTildeChar e) t = '~' :: e :: substS c repl .start t := by
  cases t with
  | nil => simp [substS]
  | cons x rest =>
    by_cases hx : x = '~'
    · subst hx; simp [substS, he]
    · simp [substS, hx]

theorem subst_shift (c : Char) (repl : List Char) {e : Char} (he : e ≠ c)
    (t : List Char) : subst c repl ('~' :: e :: t) = '~' :: subst c repl (e :: t) := by
  by_cases hec : e = '~'
  · subst hec; simp [subst, substS]
  · simp only [subst, substS_start_tilde]
    simp [substS, hec, substS_pending_of_ne c repl he t]

theorem subst_match (repl : List Char) {c : Char} (hc : c ≠ '~') (t : List Char) :
    subst c repl ('~' :: c :: '~' :: t) = repl ++ subst c repl t := by
  simp [subst, substS, hc]

theorem subst_append_clean (c : Char) (repl : List Char) {a : List Char}
    (ha : '~' ∉ a) (s : List Char) :
    subst c repl (a ++ s) = a ++ subst c repl s := by
  induction a with
  | nil => simp
  | cons x xs ih =>
    have hx : x ≠ '~' := fun h => ha (h ▸ List.mem_cons_self x xs)
    have hxs : '~' ∉ xs := fun h => ha (List.mem_cons_of_mem x h)
    simp only [List.cons_append, subst_cons_of_ne c repl hx, ih hxs]

theorem substS_sawTilde_head (c : Char) {repl rr : List Char}
    (hr : repl = '~' :: rr) (s : List Char) :
    ∃ u, substS c repl .sawTilde s = '~' :: u := by
  cases s with
  | nil => exact ⟨[], rfl⟩
  | cons x rest =>
    by_cases hx : x = '~'
    · subst hx; exact ⟨substS c repl .sawTilde rest, by simp [substS]⟩
    · cases rest with
      | nil => exact ⟨[x], by simp [substS, hx]⟩
      | cons y r2 =>
        by_cases hy : y = '~'
        · subst hy
          by_cases hxc : x = c
          · rw [hxc] at hx
            exact ⟨rr ++ substS c repl .start r2, by simp [substS, hxc, hx, hr]⟩
          · exact ⟨x :: substS c repl .sawTilde r2, by simp [substS, hx, hxc]⟩
        · exact ⟨x :: y :: substS c repl .start r2, by simp [substS, hx, hy]⟩

theorem subst_tilde_eq (c : Char) {repl rr : List Char}
    (hr : repl = '~' :: rr) (s : List Char) :
    subst c repl ('~' :: s) = '~' :: substTail c repl s := by
  obtain ⟨u, hu⟩ := substS_sawTilde_head c hr s
  simp [substTail, subst, substS_start_tilde, hu]

theorem substTail_match {c : Char} (hc : c ≠ '~') (inn : List Char) (r : List Char) :
    substTail c ('~' :: (inn ++ ['~'])) (c :: '~' :: r) =
      inn ++ '~' :: subst c ('~' :: (inn ++ ['~'])) r := by
  unfold substTail
  rw [subst_match _ hc]
  simp

theorem subst_tilde_step (c : Char) (repl : List Char) {s : List Char}
    (h : ∀ r, s ≠ c :: '~' :: r) :
    subst c repl ('~' :: s) = '~' :: subst c repl s := by
  cases s with
  | nil => simp [subst, substS]
  | cons e t =>
    by_cases hec : e = c
    · subst hec
      cases t with
      | nil =>
        by_cases hc2 : e = '~'
        · subst hc2; simp [subst, substS]
        · simp [subst, substS, hc2]
      | cons y r =>
        by_cases hy : y = '~'
        · exact absurd (by rw [hy]) (h r)
        · by_cases hc2 : e = '~'
          · subst hc2; simp [subst, substS, hy]
          · simp [subst, substS, hy, hc2]
    · exact subst_shift c repl hec t

theorem substTail_nomatch (c : Char) (repl : List Char) {s : List Char}
    (h : ∀ r, s ≠ c :: '~' :: r) : substTail c repl s = subst c repl s := by
  unfold substTail
  rw [subst_tilde_step c repl h, List.tail_cons]

theorem subst_shape_preserve (c1 : Char) {repl1 rr : List Char}
    (hr : repl1 = '~' :: rr) {c2 : Char} (hc2 : c2 ≠ '~') {s : List Char}
    (h : ∀ r, s ≠ c2 :: '~' :: r) :
    ∀ r, subst c1 repl1 s ≠ c2 :: '~' :: r := by
  intro r heq
  cases s with
  | nil => simp [subst, substS] at heq
  | cons y t =>
    by_cases hy : y = '~'
    · subst hy
      rw [subst_tilde_eq c1 hr t] at heq
      exact hc2 (List.head_eq_of_cons_eq heq).symm
    · rw [subst_cons_of_ne c1 repl1 hy t] at heq
      have h1 : y = c2 := List.head_eq_of_cons_eq heq
      have h2 : subst c1 repl1 t = '~' :: r := List.tail_eq_of_cons_eq heq
      cases t with
      | nil => simp [subst, substS] at h2
      | cons z t2 =>
        by_cases hz : z = '~'
        · subst hz
          exact h t2 (by rw [h1])
        · rw [subst_cons_of_ne c1 repl1 hz t2] at h2
          exact hz (List.head_eq_of_cons_eq h2)

theorem subst_block (c : Char) (repl : List Char) {inn : List Char}
    (hn : inn ≠ []) (ht : '~' ∉ inn) (hx : c ∉ inn) (s : List Char) :
    subst c repl ('~' :: (inn ++ '~' :: s)) = '~' :: inn ++ subst c repl ('~' :: s) := by
  cases inn with
  | nil => exact absurd rfl hn
  | cons e a =>
    have he : e ≠ c := fun h => hx (h ▸ List.mem_cons_self e a)
    have he2 : e ≠ '~' := fun h => ht (h ▸ List.mem_cons_self e a)
    have ha : '~' ∉ a := fun h => ht (List.mem_cons_of_mem e h)
    rw [List.cons_append, subst_shift c repl he, subst_cons_of_ne c repl he2,
      subst_append_clean c repl ha]
    simp

theorem subst_comm_ind (c1 c2 : Char) (inn1 inn2 : List Char)
    (hc1 : c1 ≠ '~') (hc2 : c2 ≠ '~') (h12 : c1 ≠ c2)
    (hn1 : inn1 ≠ []) (hn2 : inn2 ≠ [])
    (ht1 : '~' ∉ inn1) (ht2 : '~' ∉ inn2)
    (hx1 : c2 ∉ inn1) (hx2 : c1 ∉ inn2) :
    ∀ n t, t.length ≤ n →
      (subst c1 ('~' :: (inn1 ++ ['~'])) (subst c2 ('~' :: (inn2 ++ ['~'])) t) =
         subst c2 ('~' :: (inn2 ++ ['~'])) (subst c1 ('~' :: (inn1 ++ ['~'])) t)) ∧
      (subst c1 ('~' :: (inn1 ++ ['~'])) (substTail c2 ('~' :: (inn2 ++ ['~'])) t) =
         substTail c2 ('~' :: (inn2 ++ ['~'])) (subst c1 ('~' :: (inn1 ++ ['~'])) t)) ∧
      (subst c2 ('~' :: (inn2 ++ ['~'])) (substTail c1 ('~' :: (inn1 ++ ['~'])) t) =
         substTail c1 ('~' :: (inn1 ++ ['~'])) (subst c2 ('~' :: (inn2 ++ ['~'])) t)) := by
  intro n
  induction n with
  | zero =>
    intro t ht
    have h0 : t = [] := List.eq_nil_of_length_eq_zero (Nat.le_zero.mp ht)
    subst h0
    refine ⟨rfl, ?_, ?_⟩ <;> simp [subst, substS, substTail]
  | succ n ih =>
    intro t ht
    have hA : subst c1 ('~' :: (inn1 ++ ['~'])) (subst c2 ('~' :: (inn2 ++ ['~'])) t) =
        subst c2 ('~' :: (inn2 ++ ['~'])) (subst c1 ('~' :: (inn1 ++ ['~'])) t) := by
      cases t with
      | nil => rfl
      | cons x u =>
        by_cases hx : x = '~'
        · subst hx
          by_cases h1 : ∃ r, u = c1 :: '~' :: r
          · obtain ⟨r, rfl⟩ := h1
            have hr : r.length ≤ n := by simp at ht; omega
            have hB12 := (ih r hr).2.1
            rw [subst_shift c2 _ h12, subst_cons_of_ne c2 _ hc1,
              @subst_tilde_eq c2 ('~' :: (inn2 ++ ['~'])) (inn2 ++ ['~']) rfl,
              subst_match _ hc1, subst_match _ hc1]
            simp only [List.cons_append, List.append_assoc, List.singleton_append,
              List.nil_append]
            rw [subst_block c2 _ hn1 ht1 hx1,
              @subst_tilde_eq c2 ('~' :: (inn2 ++ ['~'])) (inn2 ++ ['~']) rfl, hB12]
            simp [List.cons_append]
          · by_cases h2 : ∃ r, u = c2 :: '~' :: r
            · obtain ⟨r, rfl⟩ := h2
              have hr : r.length ≤ n := by simp at ht; omega
              have hB21 := (ih r hr).2.2
              rw [subst_shift c1 _ (Ne.symm h12), subst_cons_of_ne c1 _ hc2,
                @subst_tilde_eq c1 ('~' :: (inn1 ++ ['~'])) (inn1 ++ ['~']) rfl,
                subst_match _ hc2, subst_match _ hc2]
              simp only [List.cons_append, List.append_assoc, List.singleton_append,
                List.nil_append]
              rw [subst_block c1 _ hn2 ht2 hx2,
                @subst_tilde_eq c1 ('~' :: (inn1 ++ ['~'])) (inn1 ++ ['~']) rfl, hB21]
              simp [List.cons_append]
            · push_neg at h1 h2
              rw [subst_tilde_step c2 _ h2, subst_tilde_step c1 _ h1]
              have hp1 : ∀ r, subst c2 ('~' :: (inn2 ++ ['~'])) u ≠ c1 :: '~' :: r :=
                subst_shape_preserve c2 rfl hc1 h1
              have hp2 : ∀ r, subst c1 ('~' :: (inn1 ++ ['~'])) u ≠ c2 :: '~' :: r :=
                subst_shape_preserve c1 rfl hc2 h2
              rw [subst_tilde_step c1 _ hp1, subst_tilde_step c2 _ hp2]
              have hu : u.length ≤ n := by simp at ht; omega
              rw [(ih u hu).1]
        · have hu : u.length ≤ n := by simp at ht; omega
          rw [subst_cons_of_ne c2 _ hx, subst_cons_of_ne c1 _ hx,
            subst_cons_of_ne c1 _ hx, subst_cons_of_ne c2 _ hx, (ih u hu).1]
    refine ⟨hA, ?_, ?_⟩
    · by_cases hs : ∃ r, t = c2 :: '~' :: r
      · obtain ⟨r, rfl⟩ := hs
        have hr : r.length ≤ n := by simp at ht; omega
        have hB21 := (ih r hr).2.2
        rw [substTail_match hc2 inn2 r, subst_append_clean c1 _ ht2,
          @subst_tilde_eq c1 ('~' :: (inn1 ++ ['~'])) (inn1 ++ ['~']) rfl,
          subst_cons_of_ne c1 _ hc2,
          @subst_tilde_eq c1 ('~' :: (inn1 ++ ['~'])) (inn1 ++ ['~']) rfl,
          substTail_match hc2 inn2, hB21]
      · push_neg at hs
        rw [substTail_nomatch c2 _ hs,
          substTail_nomatch c2 _ (subst_shape_preserve c1 rfl hc2 hs), hA]
    · by_cases hs : ∃ r, t = c1 :: '~' :: r
      · obtain ⟨r, rfl⟩ := hs
        have hr : r.length ≤ n := by simp at ht; omega
        have hB12 := (ih r hr).2.1
        rw [substTail_match hc1 inn1 r, subst_append_clean c2 _ ht1,
          @subst_tilde_eq c2 ('~' :: (inn2 ++ ['~'])) (inn2 ++ ['~']) rfl,
          subst_cons_of_ne c2 _ hc1,
          @subst_tilde_eq c2 ('~' :: (inn2 ++ ['~'])) (inn2 ++ ['~']) rfl,
          substTail_match hc1 inn1, hB12]
      · push_neg at hs
        rw [substTail_nomatch c1 _ hs,
          substTail_nomatch c1 _ (subst_shape_preserve c2 rfl hc1 hs), hA]

theorem table_rules_comm :
    ∀ p ∈ GTA_FORMAT_REPLACEMENT_TABLE, ∀ q ∈ GTA_FORMAT_REPLACEMENT_TABLE,
      ∀ s, subst q.1 q.2 (subst p.1 p.2 s) = subst p.1 p.2 (subst q.1 q.2 s) := by
  have hcond : ∀ p ∈ GTA_FORMAT_REPLACEMENT_TABLE,
      ∀ q ∈ GTA_FORMAT_REPLACEMENT_TABLE, p = q ∨
      (q.1 ≠ '~' ∧ p.1 ≠ '~' ∧ q.1 ≠ p.1 ∧
       q.2.tail.dropLast ≠ [] ∧ p.2.tail.dropLast ≠ [] ∧
       '~' ∉ q.2.tail.dropLast ∧ '~' ∉ p.2.tail.dropLast ∧
       p.1 ∉ q.2.tail.dropLast ∧ q.1 ∉ p.2.tail.dropLast ∧
       q.2 = '~' :: (q.2.tail.dropLast ++ ['~']) ∧
       p.2 = '~' :: (p.2.tail.dropLast ++ ['~'])) := by decide
  intro p hp q hq s
  rcases hcond p hp q hq with rfl | ⟨h1, h2, h3, h4, h5, h6, h7, h8, h9, h10, h11⟩
  · rfl
  · rw [h10, h11]
    exact (subst_comm_ind q.1 p.1 q.2.tail.dropLast p.2.tail.dropLast
      h1 h2 h3 h4 h5 h6 h7 h8 h9 s.length s (Nat.le_refl _)).1

theorem foldl_perm_of_comm {α β : Type} (f : β → α → β) :
    ∀ {l l' : List α}, l.Perm l' →
      (∀ x ∈ l, ∀ y ∈ l, ∀ b, f (f b x) y = f (f b y) x) →
      ∀ b, l.foldl f b = l'.foldl f b := by
  intro l l' h
  induction h with
  | nil => intro _ _; rfl
  | cons x h ih =>
    intro hc b
    simp only [List.foldl_cons]
    exact ih (fun a ha c hcmem => hc a (List.mem_cons_of_mem x ha) c
      (List.mem_cons_of_mem x hcmem)) (f b x)
  | swap x y l =>
    intro hc b
    simp only [List.foldl_cons]
    rw [hc y (by simp) x (by simp)]
  | trans h1 h2 ih1 ih2 =>
    intro hc b
    rw [ih1 hc b, ih2 (fun a ha c hcmem => hc a (h1.mem_iff.mpr ha) c
      (h1.mem_iff.mpr hcmem)) b]

/-- C9: shorthand rewriting is order-independent: applying the rewrite rules
of `GTA_FORMAT_REPLACEMENT_TABLE` sequentially in any permutation of the
table order yields, for every input string, the same result as the table
order itself (no rule's replacement text contains a match of any rule's
pattern, so distinct rules commute). -/
theorem rewrite_order_independent (l : List (Char × List Char))
    (h : l.Perm GTA_FORMAT_REPLACEMENT_TABLE) (text : List Char) :
    regex_replace_multiple text l =
      regex_replace_multiple text GTA_FORMAT_REPLACEMENT_TABLE := by
  unfold regex_replace_multiple
  exact foldl_perm_of_comm _ h
    (fun x hx y hy b => table_rules_comm x (h.mem_iff.mp hx) y (h.mem_iff.mp hy) b) text

/-- Witness for `rewrite_order_independent`: the reversed table is a
permutation of the table and rewrites a concrete text identically. -/
theorem rewrite_order_independent_witness :
    GTA_FORMAT_REPLACEMENT_TABLE.reverse.Perm GTA_FORMAT_REPLACEMENT_TABLE ∧
    regex_replace_multiple (toL "~y~Hello ~r~world~s~")
        GTA_FORMAT_REPLACEMENT_TABLE.reverse =
      regex_replace_multiple (toL "~y~Hello ~r~world~s~")
        GTA_FORMAT_REPLACEMENT_TABLE :=
  ⟨List.reverse_perm _,
   rewrite_order_independent GTA_FORMAT_REPLACEMENT_TABLE.reverse
     (List.reverse_perm _) (toL "~y~Hello ~r~world~s~")⟩

/-! ### Round trip of the `GROUP_REGEX` tokenizer -/

theorem stripPre_eq : ∀ (p t r : List Char), stripPre p t = some r → p ++ r = t := by
  intro p
  induction p with
  | nil =>
    intro t r h
    simp [stripPre] at h
    simp [h]
  | cons a ps ih =>
    intro t r h
    cases t with
    | nil => simp [stripPre] at h
    | cons x rest =>
      simp only [stripPre] at h
      by_cases hx : x = a
      · rw [if_pos hx] at h
        subst hx
        simp [ih rest r h]
      · rw [if_neg hx] at h
        exact absurd h (by simp)

theorem scanTilde_eq : ∀ (t : List Char) (q : List Char × List Char),
    scanTilde t = some q → q.1 ++ '~' :: q.2 = t := by
  intro t
  induction t with
  | nil => intro q h; simp [scanTilde] at h
  | cons x rest ih =>
    intro q h
    simp only [scanTilde] at h
    by_cases hx : x = '~'
    · rw [if_pos hx] at h
      simp at h
      subst hx
      simp [← h]
    · rw [if_neg hx] at h
      by_cases hn : x = '\n'
      · rw [if_pos hn] at h; exact absurd h (by simp)
      · rw [if_neg hn] at h
        simp only [Option.map_eq_some'] at h
        obtain ⟨q2, hq2, hq⟩ := h
        subst hq
        simp [ih q2 hq2]

theorem litAlt_eq {lit t : List Char} {q : List Char × List Char}
    (h : litAlt lit t = some q) : q.1 ++ q.2 = t ∧ q.1 = lit := by
  simp only [litAlt, Option.map_eq_some'] at h
  obtain ⟨r, hr, hq⟩ := h
  subst hq
  exact ⟨stripPre_eq lit t r hr, rfl⟩

theorem tildeNameAlt_eq {pre t : List Char} {q : List Char × List Char}
    (h : tildeNameAlt pre t = some q) : q.1 ++ q.2 = t ∧ q.1 ≠ [] := by
  unfold tildeNameAlt at h
  cases hs : stripPre pre t with
  | none => rw [hs] at h; exact absurd h (by simp)
  | some r =>
    rw [hs] at h
    dsimp only at h
    have ht := stripPre_eq pre t r hs
    cases r with
    | nil => exact absurd h (by simp)
    | cons x r2 =>
      dsimp only at h
      by_cases hn : x = '\n'
      · rw [if_pos hn] at h; exact absurd h (by simp)
      · rw [if_neg hn] at h
        cases hsc : scanTilde r2 with
        | none => rw [hsc] at h; exact absurd h (by simp)
        | some p =>
          rw [hsc] at h
          dsimp only at h
          have hr2 := scanTilde_eq r2 p hsc
          simp only [Option.some.injEq] at h
          subst h
          constructor
          · rw [← ht, ← hr2]
            simp
          · simp

theorem ccAlt_eq {t : List Char} {q : List Char × List Char}
    (h : ccAlt t = some q) : q.1 ++ q.2 = t ∧ q.1 ≠ [] := by
  unfold ccAlt at h
  cases hs : stripPre (toL "~CC_") t with
  | none => simp [hs] at h
  | some r =>
    simp only [hs] at h
    have ht := stripPre_eq _ t r hs
    by_cases h1 : (digitRun r).1.length < 1 ∨ 3 < (digitRun r).1.length
    · rw [if_pos h1] at h; exact absurd h (by simp)
    · rw [if_neg h1] at h
      cases h2 : (digitRun r).2 with
      | nil => simp [h2] at h
      | cons u r2 =>
        simp only [h2] at h
        by_cases hu : u = '_'
        · subst hu
          simp only at h
          by_cases h3 : (digitRun r2).1.length < 1 ∨ 3 < (digitRun r2).1.length
          · rw [if_pos h3] at h; exact absurd h (by simp)
          · rw [if_neg h3] at h
            cases h4 : (digitRun r2).2 with
            | nil => simp [h4] at h
            | cons v r4 =>
              simp only [h4] at h
              by_cases hv : v = '_'
              · subst hv
                simp only at h
                by_cases h5 : (digitRun r4).1.length < 1 ∨ 3 < (digitRun r4).1.length
                · rw [if_pos h5] at h; exact absurd h (by simp)
                · rw [if_neg h5] at h
                  cases h6 : (digitRun r4).2 with
                  | nil => simp [h6] at h
                  | cons w r6 =>
                    simp only [h6] at h
                    by_cases hw : w = '~'
                    · subst hw
                      simp only [Option.some.injEq] at h
                      subst h
                      have e1 : (digitRun r).1 ++ '_' :: r2 = r := by
                        rw [← h2]; exact List.takeWhile_append_dropWhile isDigitCh r
                      have e2 : (digitRun r2).1 ++ '_' :: r4 = r2 := by
                        rw [← h4]; exact List.takeWhile_append_dropWhile isDigitCh r2
                      have e3 : (digitRun r4).1 ++ '~' :: r6 = r4 := by
                        rw [← h6]; exact List.takeWhile_append_dropWhile isDigitCh r4
                      constructor
                      · conv_rhs => rw [← ht, ← e1, ← e2, ← e3]
                        simp
                      · simp [toL]
                    · cases w
                      simp_all
              · cases v
                simp_all
        · cases u
          simp_all

theorem matchDirective_eq {t : List Char} {q : List Char × List Char}
    (h : matchDirective t = some q) : q.1 ++ q.2 = t ∧ q.1 ≠ [] := by
  unfold matchDirective at h
  simp only [Option.orElse_eq_some'] at h
  rcases h with h | ⟨-, h | ⟨-, h | ⟨-, h | ⟨-, h | ⟨-, h | ⟨-, h | ⟨-, h | ⟨-, h⟩⟩⟩⟩⟩⟩⟩⟩
  · obtain ⟨h1, h2⟩ := litAlt_eq h
    exact ⟨h1, by rw [h2]; simp [toL]⟩
  · obtain ⟨h1, h2⟩ := litAlt_eq h
    exact ⟨h1, by rw [h2]; simp [toL]⟩
  · obtain ⟨h1, h2⟩ := litAlt_eq h
    exact ⟨h1, by rw [h2]; simp [toL]⟩
  · obtain ⟨h1, h2⟩ := litAlt_eq h
    exact ⟨h1, by rw [h2]; simp [toL]⟩
  · obtain ⟨h1, h2⟩ := litAlt_eq h
    exact ⟨h1, by rw [h2]; simp [toL]⟩
  · obtain ⟨h1, h2⟩ := litAlt_eq h
    exact ⟨h1, by rw [h2]; simp [toL]⟩
  · exact tildeNameAlt_eq h
  · exact tildeNameAlt_eq h
  · exact ccAlt_eq h

/-- C1: tokenizer round trip.  For every input string, splitting on the
directive-union pattern (`re.split(GROUP_REGEX, ...)`) and interleaving the
plain-text fragments with the directive matches (`re.findall`) in order, the
concatenation of all fragments and directive literals reproduces the input
exactly. -/
theorem tokenizer_round_trip (t : List Char) : splitJoin (splitFmt t) = t := by
  suffices hgen : ∀ fuel s, splitJoin (splitFmtF fuel s) = s by exact hgen t.length t
  intro fuel
  induction fuel with
  | zero => intro s; simp [splitFmtF, splitJoin]
  | succ n ih =>
    intro s
    cases hm : matchDirective s with
    | some q =>
      obtain ⟨hq, -⟩ := matchDirective_eq hm
      have hih := ih q.2
      simp only [splitFmtF, hm, splitJoin, List.map_cons, List.flatten_cons,
        List.nil_append] at hih ⊢
      rw [List.append_assoc, hih, hq]
    | none =>
      cases s with
      | nil => simp [splitFmtF, hm, splitJoin]
      | cons x rest =>
        have := ih rest
        simp only [splitFmtF, hm, splitJoin] at this ⊢
        simp [this]

/-! ### The style state machine (C2) -/

theorem styleStep_isSome_of_ok {f : List Char} (hf : directiveFails f = false)
    (st : StyleState) : (styleStep st f).isSome := by
  unfold styleStep
  unfold directiveFails at hf
  by_cases h1 : f = toL "~h~" ∨ f = toL "~bold~"
  · simp [h1]
  · rw [if_neg h1]
    by_cases h2 : f = toL "~italic~"
    · simp [h2]
    · rw [if_neg h2]
      by_cases h3 : f = toL "(C)"
      · simp [h3]
      · rw [if_neg h3]
        by_cases h4 : f = toL "(/C)"
        · simp [h4]
        · rw [if_neg h4]
          by_cases h5 : f = toL "~n~"
          · simp [h5]
          · rw [if_neg h5]
            have hbig : ¬(f = toL "~h~" ∨ f = toL "~bold~" ∨ f = toL "~italic~" ∨
                f = toL "(C)" ∨ f = toL "(/C)" ∨ f = toL "~n~") := by tauto
            rw [if_neg hbig] at hf
            cases hg : innerColorScan 'A' f with
            | some g =>
              simp only [hg] at hf ⊢
              cases hl : GTA_HUD_COLORS.lookup (String.mk g.1) with
              | none => rw [hl] at hf; simp at hf
              | some cval =>
                simp only [hl] at hf ⊢
                simp only [Option.isNone_some, Bool.false_or] at hf
                simp [hf]
            | none =>
              simp only [hg] at hf ⊢
              simp [hf]

theorem runStyle_isSome {ps : List (List Char × List Char)}
    (h : ∀ p ∈ ps, directiveFails p.1 = false) :
    ∀ st : StyleState, (runStyle st ps).isSome := by
  induction ps with
  | nil => intro st; simp [runStyle]
  | cons p rest ih =>
    intro st
    obtain ⟨d, frag⟩ := p
    have h1 := styleStep_isSome_of_ok (h (d, frag) (by simp)) st
    cases hs : styleStep st d with
    | none => rw [hs] at h1; simp at h1
    | some st2 =>
      have h2 := ih (fun q hq => h q (List.mem_cons_of_mem (d, frag) hq)) st2
      cases hr : runStyle st2 rest with
      | none => rw [hr] at h2; simp at h2
      | some items => simp [runStyle, hs, hr]

/-- C2 (amended): the Style State Machine is total on every input whose
directives all resolve: when every tokenized directive of the rewritten text
avoids the failure modes (an unresolvable `~HUD_COLOUR_...~` name, any
`~HC_...~` directive, or any `~CC_R_G_B~` directive), the conversion
succeeds. -/
theorem style_machine_totality (text : List Char)
    (h : ∀ p ∈ (splitFmt (regex_replace_multiple text GTA_FORMAT_REPLACEMENT_TABLE)).2,
      directiveFails p.1 = false) :
    (formatted_string_to_html text).isSome := by
  unfold formatted_string_to_html
  have h2 := runStyle_isSome h initialStyleState
  cases hr : runStyle initialStyleState
      (splitFmt (regex_replace_multiple text GTA_FORMAT_REPLACEMENT_TABLE)).2 with
  | none => rw [hr] at h2; simp at h2
  | some items => simp [hr]

/-- Witness for `style_machine_totality` at a concrete safe input. -/
theorem style_machine_totality_witness :
    ((splitFmt (regex_replace_multiple (toL "~r~Hi~s~")
        GTA_FORMAT_REPLACEMENT_TABLE)).2.all fun p => !directiveFails p.1) = true ∧
    (formatted_string_to_html (toL "~r~Hi~s~")).isSome = true :=
  ⟨by decide, style_machine_totality (toL "~r~Hi~s~") (by decide)⟩

/-- C2 counterexample: the style machine is not total and does not substitute
the default color for an unresolvable name: it fails (Python `KeyError`) on
`"~HUD_COLOUR_NOPE~"`, whose name is not in the color table, and fails
(Python `AttributeError` in the custom-color branch) on `"~CC_1_2_3~"`. -/
theorem style_machine_failure :
    formatted_string_to_html (toL "~HUD_COLOUR_NOPE~") = none ∧
    formatted_string_to_html (toL "~CC_1_2_3~") = none := by
  exact ⟨by decide, by decide⟩

/-! ### The per-translation consistency checks -/

theorem mem_ite_singleton {c : Prop} [Decidable c] {x d : DiagKind}
    (h : d ∈ (if c then [x] else [])) : d = x := by
  split at h
  · simpa using h
  · simp at h

theorem checkTranslation_mem_cases {required : List (List Char)}
    {shouldEnd : Option (List Char)} {requiredVars : List (List Char)}
    {text : List Char} {d : DiagKind}
    (h : d ∈ checkTranslation required shouldEnd requiredVars text) :
    (∃ lits, d = .invalidFormatting lits) ∨ (∃ lits, d = .missingFormatting lits) ∨
    (∃ l e, d = .wrongEnd l e) ∨ (∃ vs, d = .missingVariables vs) ∨
    (∃ vs, d = .unneededVariables vs) ∨ d = .strayTilde ∨ d = .tooManySpaces ∨
    d = .wrongPunctuation := by
  unfold checkTranslation at h
  simp only [List.mem_append] at h
  rcases h with (((h | h) | h) | h) | h
  · split at h
    · split at h
      · simp only [List.mem_append] at h
        rcases h with (h | h) | h
        · exact Or.inl ⟨_, mem_ite_singleton h⟩
        · exact Or.inr (Or.inl ⟨_, mem_ite_singleton h⟩)
        · cases hgl : (findFormats text).getLast? with
          | none => rw [hgl] at h; simp at h
          | some l =>
            rw [hgl] at h
            exact Or.inr (Or.inr (Or.inl ⟨_, _, mem_ite_singleton h⟩))
      · simp at h
    · simp at h
  · split at h
    · exact Or.inr (Or.inr (Or.inr (Or.inl ⟨_, mem_ite_singleton h⟩)))
    · split at h
      · exact Or.inr (Or.inr (Or.inr (Or.inr (Or.inl ⟨_, mem_ite_singleton h⟩))))
      · simp at h
  · have := mem_ite_singleton h
    tauto
  · have := mem_ite_singleton h
    tauto
  · have := mem_ite_singleton h
    tauto

theorem checkTranslation_none_mem {required requiredVars : List (List Char)}
    {text : List Char} {d : DiagKind}
    (h : d ∈ checkTranslation required none requiredVars text) :
    (∃ vs, d = .missingVariables vs) ∨ (∃ vs, d = .unneededVariables vs) ∨
    d = .strayTilde ∨ d = .tooManySpaces ∨ d = .wrongPunctuation := by
  unfold checkTranslation at h
  simp only [List.mem_append] at h
  rcases h with (((h | h) | h) | h) | h
  · simp at h
  · split at h
    · exact Or.inl ⟨_, mem_ite_singleton h⟩
    · split at h
      · exact Or.inr (Or.inl ⟨_, mem_ite_singleton h⟩)
      · simp at h
  · have := mem_ite_singleton h
    tauto
  · have := mem_ite_singleton h
    tauto
  · have := mem_ite_singleton h
    tauto

/-- C3 counterexample: the reference text `"~r~hi~r~"` yields the non-empty
required set `{~r~}`, yet the translation `"hello"`, which contains no
short-format directive, is not reported at all: the missing-directive check
is guarded by `len(found_formats) > 0` on the translation. -/
theorem missing_check_skipped :
    (extractSignature (toL "~r~hi~r~")).1 = [toL "~r~"] ∧
    check_entries (toL "~r~hi~r~") [toL "hello"] = [[]] := by decide

/-- C3 (amended): for every translation that itself contains at least one
short-format directive, every literal of the required set absent from the
translation's found directives is reported in a missing-formatting error
(positioned, like all per-translation diagnostics, at the translation
element); a translation with no short-format directives is not checked. -/
theorem missing_check_amended (required : List (List Char)) (e : List Char)
    (requiredVars : List (List Char)) (text : List Char)
    (h1 : findFormats text ≠ [])
    (h2 : required.filter (fun v => decide (v ∉ (findFormats text).dedup)) ≠ []) :
    DiagKind.missingFormatting
        (required.filter (fun v => decide (v ∉ (findFormats text).dedup))) ∈
      checkTranslation required (some e) requiredVars text ∧
    ∀ v ∈ required, v ∉ findFormats text →
      v ∈ required.filter (fun v => decide (v ∉ (findFormats text).dedup)) := by
  constructor
  · have hlen : (findFormats text).length > 0 := List.length_pos.mpr h1
    simp only [checkTranslation]
    apply List.mem_append_left
    apply List.mem_append_left
    apply List.mem_append_left
    apply List.mem_append_left
    rw [if_pos hlen]
    apply List.mem_append_left
    apply List.mem_append_right
    rw [if_pos h2]
    exact List.mem_singleton.mpr rfl
  · intro v hv hnv
    simp [List.mem_filter, List.mem_dedup, hv, hnv]

/-- Witness for `missing_check_amended`. -/
theorem missing_check_amended_witness :
    findFormats (toL "~s~x") ≠ [] ∧
    [toL "~r~", toL "~s~"].filter
        (fun v => decide (v ∉ (findFormats (toL "~s~x")).dedup)) ≠ [] ∧
    DiagKind.missingFormatting
        ([toL "~r~", toL "~s~"].filter
          (fun v => decide (v ∉ (findFormats (toL "~s~x")).dedup))) ∈
      checkTranslation [toL "~r~", toL "~s~"] (some (toL "~s~")) [] (toL "~s~x") :=
  ⟨by decide, by decide,
   (missing_check_amended [toL "~r~", toL "~s~"] (toL "~s~") [] (toL "~s~x")
     (by decide) (by decide)).1⟩

/-- C4: the reference text `"Hello ~r~world~s~"` yields the required set
`{~r~, ~s~}` (as the deduplicated found list) with terminal directive `~s~`,
and for every translation whose last short-format directive differs from the
Entry's terminal directive, a wrong-end error naming both the found and the
expected literal is emitted. -/
theorem terminal_check :
    extractSignature (toL "Hello ~r~world~s~") =
      ([toL "~r~", toL "~s~"], some (toL "~s~"), []) ∧
    ∀ (required : List (List Char)) (e : List Char)
      (requiredVars : List (List Char)) (text l : List Char),
      (findFormats text).getLast? = some l → l ≠ e →
      DiagKind.wrongEnd l e ∈ checkTranslation required (some e) requiredVars text := by
  constructor
  · decide
  · intro required e requiredVars text l hl hne
    have h1 : findFormats text ≠ [] := by
      intro hc; rw [hc] at hl; simp at hl
    have hlen : (findFormats text).length > 0 := List.length_pos.mpr h1
    simp only [checkTranslation]
    apply List.mem_append_left
    apply List.mem_append_left
    apply List.mem_append_left
    apply List.mem_append_left
    rw [if_pos hlen]
    apply List.mem_append_right
    rw [hl]
    simp [hne]

/-- Witness for `terminal_check`: a translation ending in `~r~` is flagged
with expected `~s~`. -/
theorem terminal_check_witness :
    (findFormats (toL "a~r~")).getLast? = some (toL "~r~") ∧
    DiagKind.wrongEnd (toL "~r~") (toL "~s~") ∈
      checkTranslation [toL "~r~", toL "~s~"] (some (toL "~s~")) [] (toL "a~r~") :=
  ⟨by decide,
   terminal_check.2 [toL "~r~", toL "~s~"] (toL "~s~") [] (toL "a~r~") (toL "~r~")
     (by decide) (by decide)⟩

/-- C5: duplicate detection (modelled from the spec; the check is absent from
`src/validator.py`): with a formatting requirement present, `"~r~~r~"` is
flagged as a duplicate at index 0, while the exempted `"~h~~h~"` is not. -/
theorem duplicate_check_examples :
    duplicateCheck true (findFormats (toL "~r~~r~")) = some 0 ∧
    duplicateCheck true (findFormats (toL "~h~~h~")) = none := by decide

/-- C6: if the translation has fewer placeholder occurrences than required,
every literal of the required list absent from the found list is reported in
a missing-variables error; if it has more, every literal of the found list
absent from the required list is reported in an unneeded-variables error. -/
theorem variable_count_check (required : List (List Char))
    (shouldEnd : Option (List Char)) (requiredVars : List (List Char))
    (text : List Char) :
    ((findVariables text).length < requiredVars.length →
      ∀ v ∈ requiredVars, v ∉ findVariables text →
        DiagKind.missingVariables
            (requiredVars.filter (fun w => decide (w ∉ findVariables text))) ∈
          checkTranslation required shouldEnd requiredVars text ∧
        v ∈ requiredVars.filter (fun w => decide (w ∉ findVariables text))) ∧
    ((findVariables text).length > requiredVars.length →
      ∀ v ∈ findVariables text, v ∉ requiredVars →
        DiagKind.unneededVariables
            ((findVariables text).filter (fun w => decide (w ∉ requiredVars))) ∈
          checkTranslation required shouldEnd requiredVars text ∧
        v ∈ (findVariables text).filter (fun w => decide (w ∉ requiredVars))) := by
  constructor
  · intro hlt v hv hnv
    have hvin : v ∈ requiredVars.filter (fun w => decide (w ∉ findVariables text)) := by
      simp [List.mem_filter, hv, hnv]
    refine ⟨?_, hvin⟩
    have hne : requiredVars.filter (fun w => decide (w ∉ findVariables text)) ≠ [] :=
      List.ne_nil_of_mem hvin
    simp only [checkTranslation]
    apply List.mem_append_left
    apply List.mem_append_left
    apply List.mem_append_left
    apply List.mem_append_right
    rw [if_pos hlt, if_pos hne]
    exact List.mem_singleton.mpr rfl
  · intro hgt v hv hnv
    have hvin : v ∈ (findVariables text).filter (fun w => decide (w ∉ requiredVars)) := by
      simp [List.mem_filter, hv, hnv]
    refine ⟨?_, hvin⟩
    have hne : (findVariables text).filter (fun w => decide (w ∉ requiredVars)) ≠ [] :=
      List.ne_nil_of_mem hvin
    have hnlt : ¬((findVariables text).length < requiredVars.length) := by omega
    simp only [checkTranslation]
    apply List.mem_append_left
    apply List.mem_append_left
    apply List.mem_append_left
    apply List.mem_append_right
    rw [if_neg hnlt, if_pos hgt, if_pos hne]
    exact List.mem_singleton.mpr rfl

/-- Witness for `variable_count_check`: reference variables
`["{0}","{1}"]`; `"Hi {0}"` reports missing `"{1}"`; `"{0}{1}{2}"` reports
unneeded `"{2}"`. -/
theorem variable_count_check_witness :
    (DiagKind.missingVariables
        ([toL "{0}", toL "{1}"].filter
          (fun w => decide (w ∉ findVariables (toL "Hi {0}")))) ∈
      checkTranslation [] none [toL "{0}", toL "{1}"] (toL "Hi {0}") ∧
      toL "{1}" ∈ [toL "{0}", toL "{1}"].filter
        (fun w => decide (w ∉ findVariables (toL "Hi {0}")))) ∧
    (DiagKind.unneededVariables
        ((findVariables (toL "{0}{1}{2}")).filter
          (fun w => decide (w ∉ ([toL "{0}", toL "{1}"] : List (List Char))))) ∈
      checkTranslation [] none [toL "{0}", toL "{1}"] (toL "{0}{1}{2}") ∧
      toL "{2}" ∈ (findVariables (toL "{0}{1}{2}")).filter
        (fun w => decide (w ∉ ([toL "{0}", toL "{1}"] : List (List Char))))) :=
  ⟨(variable_count_check [] none [toL "{0}", toL "{1}"] (toL "Hi {0}")).1
      (by decide) (toL "{1}") (by decide) (by decide),
   (variable_count_check [] none [toL "{0}", toL "{1}"] (toL "{0}{1}{2}")).2
      (by decide) (toL "{2}") (by decide) (by decide)⟩

/-- C7 counterexample: a run of two consecutive spaces and a space before
sentence-terminating punctuation are reported through `print_error`, not as
warnings: the emitted diagnostics have error severity, and a single such
diagnostic makes the exit code non-zero. -/
theorem spacing_reported_as_error :
    checkTranslation [] none [] (toL "a  b") = [DiagKind.tooManySpaces] ∧
    DiagKind.tooManySpaces.severity = Severity.error ∧
    checkTranslation [] none [] (toL "a !") = [DiagKind.wrongPunctuation] ∧
    DiagKind.wrongPunctuation.severity = Severity.error ∧
    exitCode [DiagKind.tooManySpaces] = 1 := by decide

/-- C7 (amended): every diagnostic emitted by the per-translation checks —
including the spacing and punctuation ones — has error severity (only the
missing-translation report is a warning), and the program exits non-zero
exactly when at least one error-severity diagnostic was recorded. -/
theorem severity_exit_amended :
    (∀ (required : List (List Char)) (shouldEnd : Option (List Char))
      (requiredVars : List (List Char)) (text : List Char) (d : DiagKind),
      d ∈ checkTranslation required shouldEnd requiredVars text →
        d.severity = Severity.error) ∧
    (∀ ds : List DiagKind, exitCode ds = 1 ↔ ∃ d ∈ ds, d.severity = Severity.error) := by
  constructor
  · intro required shouldEnd requiredVars text d hd
    rcases checkTranslation_mem_cases hd with
      ⟨l, rfl⟩ | ⟨l, rfl⟩ | ⟨l, e2, rfl⟩ | ⟨l, rfl⟩ | ⟨l, rfl⟩ | rfl | rfl | rfl <;> rfl
  · intro ds
    unfold exitCode countErrors
    constructor
    · intro h
      by_cases hc : (ds.filter fun d => decide (d.severity = Severity.error)).length > 0
      · obtain ⟨d, hd⟩ := List.exists_mem_of_length_pos hc
        have hm := List.mem_filter.mp hd
        exact ⟨d, hm.1, by simpa using hm.2⟩
      · rw [if_neg hc] at h
        exact absurd h (by simp)
    · rintro ⟨d, hd, hsev⟩
      have hm : d ∈ ds.filter fun d => decide (d.severity = Severity.error) :=
        List.mem_filter.mpr ⟨hd, by simp [hsev]⟩
      rw [if_pos (List.length_pos.mpr (List.ne_nil_of_mem hm))]

/-- Witness for `severity_exit_amended`. -/
theorem severity_exit_amended_witness :
    DiagKind.tooManySpaces.severity = Severity.error ∧
    exitCode [DiagKind.tooManySpaces] = 1 :=
  ⟨severity_exit_amended.1 [] none [] (toL "a  b") DiagKind.tooManySpaces (by decide),
   (severity_exit_amended.2 [DiagKind.tooManySpaces]).mpr
     ⟨DiagKind.tooManySpaces, by decide, by decide⟩⟩

/-- C8: for an Entry whose reference translation contains no short-format
directives, no invalid-, missing- or terminal-directive diagnostic is emitted
for any of its translations, and the (spec-modelled) duplicate check, which
is only evaluated when the Entry has a formatting requirement, reports
nothing either. -/
theorem no_requirement_no_formatting_diags (refText : List Char)
    (translations : List (List Char)) (h : findFormats refText = []) :
    ((check_entries refText translations).all fun ds =>
      ds.all fun d => !isFormattingDiag d) = true ∧
    ∀ t ∈ translations,
      duplicateCheck (extractSignature refText).2.1.isSome (findFormats t) = none := by
  have hsig : (extractSignature refText).2.1 = none := by
    simp [extractSignature, h]
  constructor
  · rw [List.all_eq_true]
    intro ds hds
    rw [List.all_eq_true]
    intro d hd
    simp only [check_entries, List.mem_map] at hds
    obtain ⟨t, ht, rfl⟩ := hds
    rw [hsig] at hd
    rcases checkTranslation_none_mem hd with ⟨vs, rfl⟩ | ⟨vs, rfl⟩ | rfl | rfl | rfl <;> rfl
  · intro t ht
    simp [duplicateCheck, hsig]

/-- Witness for `no_requirement_no_formatting_diags`: a reference with no
directives and a translation full of directives. -/
theorem no_requirement_no_formatting_diags_witness :
    findFormats (toL "Hello") = [] ∧
    ((check_entries (toL "Hello") [toL "~r~~r~x~s~"]).all fun ds =>
      ds.all fun d => !isFormattingDiag d) = true ∧
    duplicateCheck (extractSignature (toL "Hello")).2.1.isSome
      (findFormats (toL "~r~~r~x~s~")) = none :=
  ⟨by decide,
   (no_requirement_no_formatting_diags (toL "Hello") [toL "~r~~r~x~s~"] (by decide)).1,
   (no_requirement_no_formatting_diags (toL "Hello") [toL "~r~~r~x~s~"] (by decide)).2
     (toL "~r~~r~x~s~") (by decide)⟩

/-- C10: when the translation's placeholder-variable list has exactly the
required length, no missing-variable or unneeded-variable diagnostic is
emitted, even when the literals differ. -/
theorem equal_variable_count_no_diags (required : List (List Char))
    (shouldEnd : Option (List Char)) (requiredVars : List (List Char))
    (text : List Char) (h : (findVariables text).length = requiredVars.length) :
    ((checkTranslation required shouldEnd requiredVars text).all
      fun d => !isVariableDiag d) = true := by
  rw [List.all_eq_true]
  intro d hd
  unfold checkTranslation at hd
  simp only [List.mem_append] at hd
  rcases hd with (((hd | hd) | hd) | hd) | hd
  · split at hd
    · split at hd
      · simp only [List.mem_append] at hd
        rcases hd with (hd | hd) | hd
        · simp [mem_ite_singleton hd, isVariableDiag]
        · simp [mem_ite_singleton hd, isVariableDiag]
        · cases hgl : (findFormats text).getLast? with
          | none => rw [hgl] at hd; simp at hd
          | some l =>
            rw [hgl] at hd
            simp [mem_ite_singleton hd, isVariableDiag]
      · simp at hd
    · simp at hd
  · have hn1 : ¬((findVariables text).length < requiredVars.length) := by omega
    have hn2 : ¬((findVariables text).length > requiredVars.length) := by omega
    rw [if_neg hn1, if_neg hn2] at hd
    simp at hd
  · simp [mem_ite_singleton hd, isVariableDiag]
  · simp [mem_ite_singleton hd, isVariableDiag]
  · simp [mem_ite_singleton hd, isVariableDiag]

/-- Witness for `equal_variable_count_no_diags`: required `["{0}","{1}"]`
against found `["{0}","{0}"]` — same length, different literals, no variable
diagnostic. -/
theorem equal_variable_count_no_diags_witness :
    (findVariables (toL "{0}{0}")).length = [toL "{0}", toL "{1}"].length ∧
    ((checkTranslation [] none [toL "{0}", toL "{1}"] (toL "{0}{0}")).all
      fun d => !isVariableDiag d) = true :=
  ⟨by decide,
   equal_variable_count_no_diags [] none [toL "{0}", toL "{1}"] (toL "{0}{0}")
     (by decide)⟩
